import Mathlib

/-!
Verification of the seasonality-detection and decomposition core of the
`darts` statistics module (`darts/utils/statistics.py`).

A univariate time series is embedded as a `List ℚ` of sampled values
(rational numbers model the exact real arithmetic of the code).  External
collaborators — the autocorrelation estimator (`statsmodels.tsa.stattools.acf`),
the standard-normal quantile function (`scipy.stats.norm.ppf`), the square
root (`math.sqrt`) and the seasonal decomposition
(`statsmodels.tsa.seasonal.seasonal_decompose`) — are taken as function
parameters, so every theorem quantifies over them.  The local-maxima finder
(`scipy.signal.argrelmax`) and the decomposition-model enumerations are
concrete definitions, modelled from the spec.
-/

/-- Python slice `xs[:j]` for an `int` index `j` that may be negative:
a nonnegative `j` keeps the first `j` elements (clamped to the length),
a negative `j` keeps the first `len(xs) + j` elements (clamped below by 0). -/
def pySliceTo (xs : List ℚ) (j : ℤ) : List ℚ :=
  if 0 ≤ j then xs.take j.toNat else xs.take ((xs.length : ℤ) + j).toNat

/-- `_bartlett_formula(r, m, length)` from `darts/utils/statistics.py`:
`sqrt(1/length)` when `m == 1`, otherwise
`sqrt((1 + 2 * sum(x**2 for x in r[:m-1])) / length)`.
`sqrtFn` stands for the `math.sqrt` collaborator. -/
def _bartlett_formula (sqrtFn : ℚ → ℚ) (r : List ℚ) (m : ℤ) (length : ℕ) : ℚ :=
  if m = 1 then
    sqrtFn (1 / (length : ℚ))
  else
    sqrtFn ((1 + 2 * ((pySliceTo r (m - 1)).map (fun x => x ^ 2)).sum) / (length : ℚ))

/-- Sum of squares over a `take` prefix agrees with an indexed range sum
(absent positions contribute `0`). -/
lemma sum_take_map_sq (r : List ℚ) (k : ℕ) :
    ((r.take k).map (fun x => x ^ 2)).sum =
      ∑ i in Finset.range k, (r.getD i 0) ^ 2 := by
  induction r generalizing k with
  | nil =>
    simp
  | cons a t ih =>
    cases k with
    | zero => simp
    | succ k' =>
      rw [List.take_succ_cons, List.map_cons, List.sum_cons, ih k',
        Finset.sum_range_succ']
      simp [add_comm]

/-- Python slice `r[:j]` for `j ≤ -1` drops at least the last element;
at `j = -1` it is exactly `dropLast`. -/
lemma pySliceTo_neg_one (xs : List ℚ) : pySliceTo xs (-1) = xs.dropLast := by
  unfold pySliceTo
  rw [if_neg (by norm_num)]
  have h : ((xs.length : ℤ) + -1).toNat = xs.length - 1 := by omega
  rw [h, List.dropLast_eq_take]

/-- Claim C4: `_bartlett_formula r m n` equals `sqrt(1/n)` when `m = 1`, for
every vector `r` and every sample length `n`; and when `m > 1` it equals
`sqrt((1 + 2 * Σ_{i=0}^{m-2} r[i]^2) / n)`, the sum ranging over exactly the
first `m - 1` elements of `r`. -/
theorem bartlett_formula_spec (sqrtFn : ℚ → ℚ) (r : List ℚ) (n : ℕ) (m : ℕ) :
    (_bartlett_formula sqrtFn r 1 n = sqrtFn (1 / (n : ℚ))) ∧
    (1 < m →
      _bartlett_formula sqrtFn r (m : ℤ) n =
        sqrtFn ((1 + 2 * ∑ i in Finset.range (m - 1), (r.getD i 0) ^ 2) / (n : ℚ))) := by
  constructor
  · simp [_bartlett_formula]
  · intro hm
    unfold _bartlett_formula
    rw [if_neg (by exact_mod_cast Nat.ne_of_gt hm)]
    have hsl : pySliceTo r ((m : ℤ) - 1) = r.take (m - 1) := by
      unfold pySliceTo
      rw [if_pos (by omega)]
      congr 1
      omega
    rw [hsl, sum_take_map_sq]

/-- Claim C4 witness at `sqrtFn = id`, `r = [1/2, 1/3]`, `n = 5`, `m = 3`. -/
theorem bartlett_formula_spec_witness :
    _bartlett_formula id [(1 : ℚ)/2, 1/3] ((3 : ℕ) : ℤ) 5 =
      id ((1 + 2 * ∑ i in Finset.range (3 - 1), (([(1 : ℚ)/2, 1/3]).getD i 0) ^ 2) / ((5 : ℕ) : ℚ)) :=
  (bartlett_formula_spec id [(1 : ℚ)/2, 1/3] 5 3).2 (by decide)

/-- Claim C10: at `m = 0` the formula takes the general branch and the Python
slice `r[:m-1] = r[:-1]` keeps every element of `r` except the last, so the
result is `sqrt((1 + 2 * Σ x^2 over r.dropLast) / length)` — not `sqrt(1/length)`
and not a sum over an empty prefix. -/
theorem bartlett_formula_m_zero (sqrtFn : ℚ → ℚ) (r : List ℚ) (n : ℕ) :
    _bartlett_formula sqrtFn r 0 n =
      sqrtFn ((1 + 2 * ((r.dropLast).map (fun x => x ^ 2)).sum) / (n : ℚ)) := by
  unfold _bartlett_formula
  rw [if_neg (by norm_num)]
  norm_num [pySliceTo_neg_one]

/-- Modelled from the spec: the two-variant decomposition kind
(`darts.utils.utils.ModelMode`), the "real" decomposition choices. -/
inductive ModelMode where
  | MULTIPLICATIVE
  | ADDITIVE
deriving DecidableEq

/-- Modelled from the spec: the three-variant kind
(`darts.utils.utils.SeasonalityMode`), a superset with the sentinel `NONE`. -/
inductive SeasonalityMode where
  | MULTIPLICATIVE
  | ADDITIVE
  | NONE
deriving DecidableEq

/-- The `Union[SeasonalityMode, ModelMode]` argument type of the decomposition
and removal functions. -/
def Mode : Type := Sum ModelMode SeasonalityMode

instance : DecidableEq Mode := instDecidableEqSum

/-- Modelled from the spec: the `.value` payload of each enum member —
the string the code branches on (`'multiplicative'` / `'additive'`), with the
sentinel `NONE` carrying no string. -/
def Mode.value : Mode → Option String
  | .inl .MULTIPLICATIVE => some "multiplicative"
  | .inl .ADDITIVE => some "additive"
  | .inr .MULTIPLICATIVE => some "multiplicative"
  | .inr .ADDITIVE => some "additive"
  | .inr .NONE => none

/-- The Python check `model in ModelMode or model in SeasonalityMode`: every
member of the union type satisfies it. -/
def Mode.isMember : Mode → Bool
  | .inl _ => true
  | .inr _ => true

/-- `remove_from_series(ts, other, model)`: elementwise `ts / other` for a
multiplicative model, elementwise `ts - other` for an additive one, error for
any other tag.  Elementwise series arithmetic (`TimeSeries.__truediv__` /
`__sub__` on aligned series) is modelled from the spec as `zipWith`. -/
def remove_from_series (ts other : List ℚ) (model : Mode) : Except String (List ℚ) :=
  if Mode.isMember model = false then
    .error "Unknown value for model_mode."
  else if model.value = some "multiplicative" then
    .ok (List.zipWith (fun a b => a / b) ts other)
  else if model.value = some "additive" then
    .ok (List.zipWith (fun a b => a - b) ts other)
  else
    .error "Invalid parameter; must be either ADDITIVE or MULTIPLICATIVE."

/-- `extract_trend_and_seasonality(ts, freq, model)`: rejects the sentinel
`NONE`, then delegates to the decomposition collaborator
(`seasonal_decompose`, abstracted as `decompose`, returning the pair
`(seasonal, trend)`) and returns `(trend, season)`. -/
def extract_trend_and_seasonality
    (decompose : List ℚ → Option ℕ → Option String → List ℚ × List ℚ)
    (ts : List ℚ) (freq : Option ℕ) (model : Mode) :
    Except String (List ℚ × List ℚ) :=
  if Mode.isMember model = false then
    .error "Unknown value for model_mode."
  else if model = Sum.inr SeasonalityMode.NONE then
    .error "The model must be either MULTIPLICATIVE or ADDITIVE."
  else
    let d := decompose ts freq model.value
    .ok (d.2, d.1)

/-- `remove_seasonality(ts, freq, model)`: rejects the sentinel `NONE`, then
extracts `(trend, seasonal)` and removes the seasonal component from `ts`. -/
def remove_seasonality
    (decompose : List ℚ → Option ℕ → Option String → List ℚ × List ℚ)
    (ts : List ℚ) (freq : Option ℕ) (model : Mode) : Except String (List ℚ) :=
  if model = Sum.inr SeasonalityMode.NONE then
    .error "The model must be either MULTIPLICATIVE or ADDITIVE."
  else
    match extract_trend_and_seasonality decompose ts freq model with
    | .error e => .error e
    | .ok (_, seasonality) => remove_from_series ts seasonality model

/-- The additive branch of `remove_from_series`, as an equation. -/
lemma remove_from_series_additive (ts other : List ℚ) (model : Mode)
    (h : model.value = some "additive") :
    remove_from_series ts other model =
      .ok (List.zipWith (fun a b => a - b) ts other) := by
  rcases model with m | m <;> cases m <;> simp_all [remove_from_series, Mode.value, Mode.isMember]

/-- The multiplicative branch of `remove_from_series`, as an equation. -/
lemma remove_from_series_multiplicative (ts other : List ℚ) (model : Mode)
    (h : model.value = some "multiplicative") :
    remove_from_series ts other model =
      .ok (List.zipWith (fun a b => a / b) ts other) := by
  rcases model with m | m <;> cases m <;> simp_all [remove_from_series, Mode.value, Mode.isMember]

/-- Claim C3: `remove_from_series` returns exactly the elementwise difference
for an additive model, exactly the elementwise quotient for a multiplicative
model, and an error (no result) for any other model tag. -/
theorem remove_from_series_spec (ts other : List ℚ) (model : Mode) :
    (model.value = some "additive" →
      remove_from_series ts other model =
        .ok (List.zipWith (fun a b => a - b) ts other)) ∧
    (model.value = some "multiplicative" →
      remove_from_series ts other model =
        .ok (List.zipWith (fun a b => a / b) ts other)) ∧
    (model.value ≠ some "additive" → model.value ≠ some "multiplicative" →
      ∃ e, remove_from_series ts other model = .error e) := by
  refine ⟨remove_from_series_additive ts other model,
    remove_from_series_multiplicative ts other model, fun h1 h2 => ?_⟩
  rcases model with m | m <;> cases m <;>
    simp_all [remove_from_series, Mode.value, Mode.isMember]

/-- Claim C3 witness: additive removal on `ts = [3, 5]`, `other = [1, 2]`. -/
theorem remove_from_series_spec_witness :
    remove_from_series [(3 : ℚ), 5] [1, 2] (Sum.inl ModelMode.ADDITIVE) =
      .ok (List.zipWith (fun a b => a - b) [(3 : ℚ), 5] [1, 2]) :=
  (remove_from_series_spec [(3 : ℚ), 5] [1, 2] (Sum.inl ModelMode.ADDITIVE)).1 rfl

/-- Subtracting then adding back an aligned series is the identity. -/
lemma zipWith_sub_add (ts other : List ℚ) (h : other.length = ts.length) :
    List.zipWith (fun a b => a + b)
      (List.zipWith (fun a b => a - b) ts other) other = ts := by
  induction ts generalizing other with
  | nil => cases other <;> simp_all
  | cons a as ih =>
    cases other with
    | nil => simp at h
    | cons b bs =>
      simp only [List.zipWith_cons_cons, List.cons.injEq]
      exact ⟨by ring, ih bs (by simpa using h)⟩

/-- Dividing then multiplying back an aligned, everywhere-nonzero series is
the identity. -/
lemma zipWith_div_mul (ts other : List ℚ) (h : other.length = ts.length)
    (hnz : ∀ x ∈ other, x ≠ 0) :
    List.zipWith (fun a b => a * b)
      (List.zipWith (fun a b => a / b) ts other) other = ts := by
  induction ts generalizing other with
  | nil => cases other <;> simp_all
  | cons a as ih =>
    cases other with
    | nil => simp at h
    | cons b bs =>
      simp only [List.zipWith_cons_cons, List.cons.injEq]
      refine ⟨div_mul_cancel₀ a (hnz b (by simp)), ih bs (by simpa using h) ?_⟩
      exact fun x hx => hnz x (List.mem_cons_of_mem b hx)

/-- Claim C9: removal round-trips.  With an additive model, removing `other`
and then adding it back elementwise reconstructs `ts`; with a multiplicative
model, removing `other` and then multiplying it back reconstructs `ts`
provided `other` is strictly nonzero everywhere (exact over ℚ). -/
theorem remove_from_series_roundtrip (ts other : List ℚ) (model : Mode)
    (hlen : other.length = ts.length) :
    (model.value = some "additive" → ∀ res,
      remove_from_series ts other model = .ok res →
        List.zipWith (fun a b => a + b) res other = ts) ∧
    (model.value = some "multiplicative" → (∀ x ∈ other, x ≠ 0) → ∀ res,
      remove_from_series ts other model = .ok res →
        List.zipWith (fun a b => a * b) res other = ts) := by
  constructor
  · intro hv res hres
    rw [remove_from_series_additive ts other model hv] at hres
    cases hres
    exact zipWith_sub_add ts other hlen
  · intro hv hnz res hres
    rw [remove_from_series_multiplicative ts other model hv] at hres
    cases hres
    exact zipWith_div_mul ts other hlen hnz

/-- Claim C9 witness: `ts = [6, 8]`, `other = [2, 4]`, multiplicative model. -/
theorem remove_from_series_roundtrip_witness :
    List.zipWith (fun a b => a * b)
      (List.zipWith (fun a b => a / b) [(6 : ℚ), 8] [2, 4]) [2, 4] = [(6 : ℚ), 8] :=
  (remove_from_series_roundtrip [(6 : ℚ), 8] [2, 4]
      (Sum.inl ModelMode.MULTIPLICATIVE) (by decide)).2 rfl
    (by decide) _ rfl

/-- Claim C7: `extract_trend_and_seasonality` and `remove_seasonality` both
reject the sentinel `NONE` with an error, before the decomposition collaborator
is consulted (the error holds for every `decompose`); every other model tag —
all of which carry the value `additive` or `multiplicative` — is accepted by
the extraction. -/
theorem mode_none_rejected
    (decompose : List ℚ → Option ℕ → Option String → List ℚ × List ℚ)
    (ts : List ℚ) (freq : Option ℕ) :
    (∃ e, extract_trend_and_seasonality decompose ts freq
        (Sum.inr SeasonalityMode.NONE) = .error e) ∧
    (∃ e, remove_seasonality decompose ts freq
        (Sum.inr SeasonalityMode.NONE) = .error e) ∧
    (∀ model : Mode, model ≠ Sum.inr SeasonalityMode.NONE →
      (model.value = some "additive" ∨ model.value = some "multiplicative") ∧
      ∃ res, extract_trend_and_seasonality decompose ts freq model = .ok res) := by
  refine ⟨⟨"The model must be either MULTIPLICATIVE or ADDITIVE.", ?_⟩,
    ⟨"The model must be either MULTIPLICATIVE or ADDITIVE.", ?_⟩, fun model hm => ?_⟩
  · simp [extract_trend_and_seasonality, Mode.isMember]
  · simp [remove_seasonality]
  · rcases model with m | m <;> cases m <;>
      simp_all [extract_trend_and_seasonality, Mode.value, Mode.isMember]

/-- Claim C7 witness: a trivial decomposition collaborator, `ts = [1, 2]`,
no explicit period, and the accepted model `ADDITIVE`. -/
theorem mode_none_rejected_witness :
    (Mode.value (Sum.inl ModelMode.ADDITIVE) = some "additive" ∨
      Mode.value (Sum.inl ModelMode.ADDITIVE) = some "multiplicative") ∧
    ∃ res, extract_trend_and_seasonality (fun v _ _ => (v, v)) [(1 : ℚ), 2] none
        (Sum.inl ModelMode.ADDITIVE) = .ok res :=
  ((mode_none_rejected (fun v _ _ => (v, v)) [(1 : ℚ), 2] none).2.2
    (Sum.inl ModelMode.ADDITIVE) (by simp [Mode]))

/-- A Python numeric argument as received by `check_seasonality`: its value,
and whether it is an `int` instance (`isinstance(m, int)`); a true flag
forces an integral value. -/
structure PyNum where
  val : ℚ
  isInt : Bool
  int_val : isInt = true → val.den = 1

/-- The first precondition check of `check_seasonality`:
`m is not None and (m < 2 or not isinstance(m, int))`. -/
def m_invalid (m : Option PyNum) : Bool :=
  match m with
  | some p => decide (p.val < 2) || !p.isInt
  | none => false

/-- The second precondition check of `check_seasonality`:
`m is not None and m > max_lag`. -/
def m_exceeds (m : Option PyNum) (max_lag : ℕ) : Bool :=
  match m with
  | some p => decide ((max_lag : ℚ) < p.val)
  | none => false

/-- `numpy` mean of a vector. -/
def listMean (l : List ℚ) : ℚ := l.sum / (l.length : ℚ)

/-- `numpy` (population) variance of a vector. -/
def listVar (l : List ℚ) : ℚ :=
  ((l.map (fun x => (x - listMean l) ^ 2)).sum) / (l.length : ℚ)

/-- Modelled from the spec: the local-maxima finder
(`scipy.signal.argrelmax`) — the ascending list of indices at which the value
strictly exceeds both neighbours, the first and last samples excluded. -/
def argrelmax (r : List ℚ) : List ℕ :=
  (List.range r.length).filter (fun i =>
    decide (0 < i) && decide (i + 1 < r.length) &&
    decide (r.getD (i - 1) 0 < r.getD i 0) && decide (r.getD (i + 1) 0 < r.getD i 0))

/-- The significance loop of `check_seasonality` (lines 92–96): walk the
candidate list, return `(True, c)` at the first candidate `c` whose
autocorrelation `r[c-1]` strictly exceeds
`_bartlett_formula(r, c - 1, n) * band_upper`, and `(False, 0)` if none does. -/
def findSignificant (sqrtFn : ℚ → ℚ) (r : List ℚ) (n : ℕ) (band_upper : ℚ) :
    List ℕ → Bool × ℕ
  | [] => (false, 0)
  | c :: cs =>
    if _bartlett_formula sqrtFn r ((c : ℤ) - 1) n * band_upper < r.getD (c - 1) 0 then
      (true, c)
    else
      findSignificant sqrtFn r n band_upper cs

/-- Lines 84–96 of `check_seasonality`: drop the lag-0 entry from the
autocorrelation vector `r0`, form the upper significance band
`mean(r) + ppf(1 - alpha/2) * var(r)`, and run the first-match loop. -/
def acf_significance (ppf sqrtFn : ℚ → ℚ) (r0 : List ℚ) (n : ℕ) (alpha : ℚ)
    (candidates : List ℕ) : Bool × ℕ :=
  let r := r0.drop 1
  let band_upper := listMean r + ppf (1 - alpha / 2) * listVar r
  findSignificant sqrtFn r n band_upper candidates

/-- `check_seasonality(ts, m, max_lag, alpha)` from
`darts/utils/statistics.py`.  `acfFn` abstracts the autocorrelation
collaborator, `ppf` the standard-normal quantile, `sqrtFn` the square root.
Raised `ValueError`s are `Except.error`. -/
def check_seasonality (acfFn : List ℚ → ℕ → List ℚ) (ppf sqrtFn : ℚ → ℚ)
    (ts : List ℚ) (m : Option PyNum) (max_lag : ℕ) (alpha : ℚ) :
    Except String (Bool × ℕ) :=
  if m_invalid m then
    .error "m must be an integer greater than 1."
  else if m_exceeds m max_lag then
    .error "max_lag must be greater than or equal to m."
  else if ts.dedup.length = 1 then
    .ok (false, 0)
  else
    let r := acfFn ts max_lag
    let candidates := argrelmax r
    if candidates = [] then
      .ok (false, 0)
    else
      match m with
      | some p =>
        let mi := p.val.num.toNat
        if mi ∈ candidates then
          .ok (acf_significance ppf sqrtFn r ts.length alpha [mi])
        else
          .ok (false, mi)
      | none => .ok (acf_significance ppf sqrtFn r ts.length alpha candidates)

/-- Equality of seasonality verdicts is decidable. -/
instance : DecidableEq (Except String (Bool × ℕ)) := fun a b =>
  match a, b with
  | .ok x, .ok y => decidable_of_iff (x = y) (by simp)
  | .error x, .error y => decidable_of_iff (x = y) (by simp)
  | .ok _, .error _ => isFalse (by simp)
  | .error _, .ok _ => isFalse (by simp)

/-- A genuine Python `int` argument. -/
def pyInt (k : ℤ) : PyNum := ⟨(k : ℚ), true, fun _ => by simp⟩

attribute [local semireducible] Rat.mul Rat.add Rat.sub Rat.inv

/-- If no candidate passes the significance test, the loop yields `(False, 0)`. -/
lemma findSignificant_of_none (sqrtFn : ℚ → ℚ) (r : List ℚ) (n : ℕ) (bu : ℚ)
    (cs : List ℕ)
    (h : ∀ c ∈ cs, ¬(_bartlett_formula sqrtFn r ((c : ℤ) - 1) n * bu < r.getD (c - 1) 0)) :
    findSignificant sqrtFn r n bu cs = (false, 0) := by
  induction cs with
  | nil => rfl
  | cons a cs ih =>
    rw [findSignificant, if_neg (h a (by simp))]
    exact ih (fun c hc => h c (List.mem_cons_of_mem a hc))

/-- On a strictly ascending candidate list, the loop returns the least passing
candidate. -/
lemma findSignificant_of_first (sqrtFn : ℚ → ℚ) (r : List ℚ) (n : ℕ) (bu : ℚ)
    (cs : List ℕ) (c : ℕ)
    (hsorted : cs.Pairwise (· < ·)) (hmem : c ∈ cs)
    (hc : _bartlett_formula sqrtFn r ((c : ℤ) - 1) n * bu < r.getD (c - 1) 0)
    (hmin : ∀ c' ∈ cs, c' < c →
      ¬(_bartlett_formula sqrtFn r ((c' : ℤ) - 1) n * bu < r.getD (c' - 1) 0)) :
    findSignificant sqrtFn r n bu cs = (true, c) := by
  induction cs with
  | nil => cases hmem
  | cons a cs ih =>
    by_cases ha : _bartlett_formula sqrtFn r ((a : ℤ) - 1) n * bu < r.getD (a - 1) 0
    · have hac : a = c := by
        rcases List.mem_cons.mp hmem with h | h
        · omega
        · have hlt : a < c := (List.pairwise_cons.mp hsorted).1 c h
          exact absurd ha (hmin a (by simp) hlt)
      rw [findSignificant, if_pos ha, hac]
    · have hmem' : c ∈ cs := by
        rcases List.mem_cons.mp hmem with h | h
        · exact absurd (h ▸ hc) ha
        · exact h
      rw [findSignificant, if_neg ha]
      exact ih (List.pairwise_cons.mp hsorted).2 hmem'
        (fun c' hc' hlt => hmin c' (List.mem_cons_of_mem a hc') hlt)

/-- The loop yields `(False, 0)` or `(True, c)` for a member `c` of the
candidate list. -/
lemma findSignificant_cases (sqrtFn : ℚ → ℚ) (r : List ℚ) (n : ℕ) (bu : ℚ)
    (cs : List ℕ) :
    findSignificant sqrtFn r n bu cs = (false, 0) ∨
      ((findSignificant sqrtFn r n bu cs).1 = true ∧
        (findSignificant sqrtFn r n bu cs).2 ∈ cs) := by
  induction cs with
  | nil => left; rfl
  | cons a cs ih =>
    rw [findSignificant]
    split
    · right; exact ⟨rfl, by simp⟩
    · rcases ih with h | ⟨h1, h2⟩
      · left; exact h
      · right; exact ⟨h1, List.mem_cons_of_mem a h2⟩

/-- Every reported local maximum is interior: positive index, not the last. -/
lemma mem_argrelmax (r : List ℚ) (c : ℕ) (h : c ∈ argrelmax r) :
    0 < c ∧ c + 1 < r.length := by
  unfold argrelmax at h
  rw [List.mem_filter] at h
  have h2 := h.2
  simp only [Bool.and_eq_true, decide_eq_true_eq] at h2
  exact ⟨h2.1.1.1, h2.1.1.2⟩

/-- The candidate list is strictly ascending. -/
lemma argrelmax_pairwise (r : List ℚ) : (argrelmax r).Pairwise (· < ·) :=
  List.Pairwise.filter _ (List.pairwise_lt_range r.length)

/-- With no requested period, a non-constant series and a non-empty candidate
list, `check_seasonality` runs the significance loop over all candidates. -/
lemma check_seasonality_none_eq (acfFn : List ℚ → ℕ → List ℚ) (ppf sqrtFn : ℚ → ℚ)
    (ts : List ℚ) (max_lag : ℕ) (alpha : ℚ)
    (hconst : ts.dedup.length ≠ 1)
    (hcand : argrelmax (acfFn ts max_lag) ≠ []) :
    check_seasonality acfFn ppf sqrtFn ts none max_lag alpha =
      .ok (acf_significance ppf sqrtFn (acfFn ts max_lag) ts.length alpha
        (argrelmax (acfFn ts max_lag))) := by
  unfold check_seasonality
  simp [m_invalid, m_exceeds, hconst, hcand]

/-- With a valid requested period, a non-constant series and a non-empty
candidate list, `check_seasonality` either restricts the loop to the requested
period or reports `(False, m)` when it is no local maximum. -/
lemma check_seasonality_some_eq (acfFn : List ℚ → ℕ → List ℚ) (ppf sqrtFn : ℚ → ℚ)
    (ts : List ℚ) (p : PyNum) (max_lag : ℕ) (alpha : ℚ)
    (h1 : m_invalid (some p) = false) (h2 : m_exceeds (some p) max_lag = false)
    (hconst : ts.dedup.length ≠ 1)
    (hcand : argrelmax (acfFn ts max_lag) ≠ []) :
    check_seasonality acfFn ppf sqrtFn ts (some p) max_lag alpha =
      (if p.val.num.toNat ∈ argrelmax (acfFn ts max_lag) then
        .ok (acf_significance ppf sqrtFn (acfFn ts max_lag) ts.length alpha
          [p.val.num.toNat])
      else
        .ok (false, p.val.num.toNat)) := by
  unfold check_seasonality
  simp only [h1, h2, Bool.false_eq_true, if_false, if_neg hconst, if_neg hcand]

/-- Claim C1: with no requested period, after dropping lag 0 the upper
confidence bound is `mean(r) + ppf(1 - alpha/2) * var(r)`; candidates are
scanned in ascending order and the first candidate `c` whose autocorrelation
`r[c-1]` strictly exceeds `_bartlett_formula(r, c-1, len(ts)) * band_upper`
yields `(True, c)` immediately (every smaller candidate fails the test), and
if no candidate passes the result is `(False, 0)`. -/
theorem check_seasonality_first_match (acfFn : List ℚ → ℕ → List ℚ)
    (ppf sqrtFn : ℚ → ℚ) (ts : List ℚ) (max_lag : ℕ) (alpha : ℚ)
    (r1 : List ℚ) (band_upper : ℚ)
    (hconst : ts.dedup.length ≠ 1)
    (hcand : argrelmax (acfFn ts max_lag) ≠ [])
    (hr1 : r1 = (acfFn ts max_lag).drop 1)
    (hband : band_upper = listMean r1 + ppf (1 - alpha / 2) * listVar r1) :
    ((∀ c ∈ argrelmax (acfFn ts max_lag),
        ¬(_bartlett_formula sqrtFn r1 ((c : ℤ) - 1) ts.length * band_upper <
          r1.getD (c - 1) 0)) →
      check_seasonality acfFn ppf sqrtFn ts none max_lag alpha = .ok (false, 0)) ∧
    (∀ c ∈ argrelmax (acfFn ts max_lag),
      (_bartlett_formula sqrtFn r1 ((c : ℤ) - 1) ts.length * band_upper <
        r1.getD (c - 1) 0) →
      (∀ c' ∈ argrelmax (acfFn ts max_lag), c' < c →
        ¬(_bartlett_formula sqrtFn r1 ((c' : ℤ) - 1) ts.length * band_upper <
          r1.getD (c' - 1) 0)) →
      check_seasonality acfFn ppf sqrtFn ts none max_lag alpha = .ok (true, c)) := by
  subst hr1 hband
  rw [check_seasonality_none_eq acfFn ppf sqrtFn ts max_lag alpha hconst hcand]
  unfold acf_significance
  constructor
  · intro h
    rw [findSignificant_of_none _ _ _ _ _ h]
  · intro c hmem hc hmin
    rw [findSignificant_of_first _ _ _ _ _ c
      (argrelmax_pairwise (acfFn ts max_lag)) hmem hc hmin]

/-- Claim C1 witness: ACF `[1, 0, 1/2, 0]` has the single candidate `2`, the
test passes there, and the verdict is `(True, 2)`. -/
theorem check_seasonality_first_match_witness :
    check_seasonality (fun _ _ => [1, 0, (1 : ℚ)/2, 0]) id id [0, 1, 0, 2]
      none 3 (1/20) = .ok (true, 2) :=
  (check_seasonality_first_match (fun _ _ => [1, 0, (1 : ℚ)/2, 0]) id id
    [0, 1, 0, 2] 3 (1/20) [0, (1 : ℚ)/2, 0] (53/240)
    (by decide) (by decide) (by decide) (by decide)).2 2
    (by decide) (by decide) (by decide)

/-- Claim C5: a constant series (exactly one distinct value) yields
`(False, 0)` for every requested period that passes the argument checks, for
every autocorrelation collaborator — the verdict precedes the ACF
computation. -/
theorem check_seasonality_constant (acfFn : List ℚ → ℕ → List ℚ)
    (ppf sqrtFn : ℚ → ℚ) (ts : List ℚ) (m : Option PyNum) (max_lag : ℕ) (alpha : ℚ)
    (h1 : m_invalid m = false) (h2 : m_exceeds m max_lag = false)
    (hconst : ts.dedup.length = 1) :
    check_seasonality acfFn ppf sqrtFn ts m max_lag alpha = .ok (false, 0) := by
  unfold check_seasonality
  simp [h1, h2, hconst]

/-- Claim C5 witness: the constant series `[3, 3, 3]` with requested period 12. -/
theorem check_seasonality_constant_witness :
    check_seasonality (fun _ _ => []) id id [3, 3, 3] (some (pyInt 12)) 24 (1/20) =
      .ok (false, 0) :=
  check_seasonality_constant (fun _ _ => []) id id [3, 3, 3] (some (pyInt 12)) 24
    (1/20) (by decide) (by decide) (by decide)

/-- Claim C6: a requested period that is below 2, not an `int`, or above
`max_lag` makes `check_seasonality` fail with an error, for every series and
every collaborator — no partial result is produced. -/
theorem check_seasonality_invalid_m (acfFn : List ℚ → ℕ → List ℚ)
    (ppf sqrtFn : ℚ → ℚ) (ts : List ℚ) (max_lag : ℕ) (alpha : ℚ) (p : PyNum)
    (h : p.val < 2 ∨ p.isInt = false ∨ (max_lag : ℚ) < p.val) :
    ∃ e, check_seasonality acfFn ppf sqrtFn ts (some p) max_lag alpha = .error e := by
  unfold check_seasonality
  by_cases h1 : m_invalid (some p)
  · exact ⟨_, by rw [if_pos h1]⟩
  · have hv : ¬p.val < 2 ∧ p.isInt = true := by
      have := h1
      simp only [m_invalid, Bool.or_eq_true, decide_eq_true_eq, Bool.not_eq_true',
        not_or] at this
      exact ⟨this.1, by simpa using this.2⟩
    have h2 : m_exceeds (some p) max_lag = true := by
      rcases h with h | h | h
      · exact absurd h hv.1
      · rw [hv.2] at h; cases h
      · simp only [m_exceeds, decide_eq_true_eq]; exact h
    refine ⟨"max_lag must be greater than or equal to m.", ?_⟩
    rw [if_neg h1, if_pos (by rw [h2])]

/-- Claim C6 witness: the requested period 1 is rejected. -/
theorem check_seasonality_invalid_m_witness :
    ∃ e, check_seasonality (fun _ _ => []) id id [0, 1, 2] (some (pyInt 1)) 24 (1/20) =
      .error e :=
  check_seasonality_invalid_m (fun _ _ => []) id id [0, 1, 2] 24 (1/20) (pyInt 1)
    (Or.inl (by decide))

/-- Claim C2, amended: for a non-constant series whose candidate set is
non-empty, a validly requested period that is not among the local-maxima
candidates makes `check_seasonality` return `(False, m)` — the requested
period itself.  (As stated the claim fails: with an empty candidate set, or a
constant series, the code returns `(False, 0)` before the membership test.) -/
theorem check_seasonality_not_candidate (acfFn : List ℚ → ℕ → List ℚ)
    (ppf sqrtFn : ℚ → ℚ) (ts : List ℚ) (max_lag : ℕ) (alpha : ℚ) (p : PyNum)
    (h1 : m_invalid (some p) = false) (h2 : m_exceeds (some p) max_lag = false)
    (hconst : ts.dedup.length ≠ 1)
    (hcand : argrelmax (acfFn ts max_lag) ≠ [])
    (hnot : p.val.num.toNat ∉ argrelmax (acfFn ts max_lag)) :
    check_seasonality acfFn ppf sqrtFn ts (some p) max_lag alpha =
      .ok (false, p.val.num.toNat) := by
  rw [check_seasonality_some_eq acfFn ppf sqrtFn ts p max_lag alpha h1 h2 hconst hcand,
    if_neg hnot]

/-- Claim C2 witness: ACF `[1, 0, 1/2, 0]` has the candidate set `[2]`; the
requested period 3 is valid but no candidate, and the verdict is `(False, 3)`. -/
theorem check_seasonality_not_candidate_witness :
    check_seasonality (fun _ _ => [1, 0, (1 : ℚ)/2, 0]) id id [0, 1, 0, 2]
      (some (pyInt 3)) 3 (1/20) = .ok (false, 3) :=
  check_seasonality_not_candidate (fun _ _ => [1, 0, (1 : ℚ)/2, 0]) id id
    [0, 1, 0, 2] 3 (1/20) (pyInt 3) (by decide) (by decide) (by decide)
    (by decide) (by decide)

/-- Claim C2 counterexample: for the non-constant series `[0, 1, 2, 3]` with a
strictly decreasing ACF `[1, 1/2, 1/4, 1/8]` the candidate set is empty, so
the valid requested period 2 is not a member of it — yet the code returns
`(False, 0)` at the empty-candidate exit, not `(False, 2)` as the claim
states. -/
theorem check_seasonality_not_candidate_cex :
    (m_invalid (some (pyInt 2)) = false ∧ m_exceeds (some (pyInt 2)) 24 = false ∧
      (pyInt 2).val.num.toNat ∉
        argrelmax ((fun _ _ => [1, (1 : ℚ)/2, 1/4, 1/8]) [(0 : ℚ), 1, 2, 3] 24)) ∧
    check_seasonality (fun _ _ => [1, (1 : ℚ)/2, 1/4, 1/8]) id id [0, 1, 2, 3]
      (some (pyInt 2)) 24 (1/20) = .ok (false, 0) ∧
    check_seasonality (fun _ _ => [1, (1 : ℚ)/2, 1/4, 1/8]) id id [0, 1, 2, 3]
      (some (pyInt 2)) 24 (1/20) ≠ .ok (false, 2) := by
  exact ⟨⟨by decide, by decide, by decide⟩, by decide, by decide⟩

/-- When `isinstance(m, int)` holds and the two precondition checks pass, the
requested period is an integer between 2 and `max_lag`. -/
lemma pynum_bounds (p : PyNum) (max_lag : ℕ)
    (h1 : m_invalid (some p) = false) (h2 : m_exceeds (some p) max_lag = false) :
    1 ≤ p.val.num.toNat ∧ p.val.num.toNat ≤ max_lag := by
  simp only [m_invalid, Bool.or_eq_true, decide_eq_true_eq, Bool.not_eq_true',
    Bool.or_eq_false_iff, decide_eq_false_iff_not, Bool.not_eq_false] at h1
  simp only [m_exceeds, decide_eq_false_iff_not, not_lt] at h2
  have hden : (p.val.num : ℚ) = p.val := by
    rw [← Rat.den_eq_one_iff]
    exact p.int_val (by simpa using h1.2)
  have hlow : (2 : ℤ) ≤ p.val.num := by
    have : (2 : ℚ) ≤ (p.val.num : ℚ) := by rw [hden]; exact not_lt.mp h1.1
    exact_mod_cast this
  have hhigh : p.val.num ≤ (max_lag : ℤ) := by
    have : (p.val.num : ℚ) ≤ (max_lag : ℚ) := by rw [hden]; exact h2
    exact_mod_cast this
  omega

/-- Claim C8: whenever `check_seasonality` returns a verdict (no error) and the
autocorrelation collaborator honours its length contract (`max_lag + 1`
entries), the returned period is the sentinel `0` or lies in `[1, max_lag]`. -/
theorem check_seasonality_period_range (acfFn : List ℚ → ℕ → List ℚ)
    (ppf sqrtFn : ℚ → ℚ) (ts : List ℚ) (m : Option PyNum) (max_lag : ℕ) (alpha : ℚ)
    (hacf : (acfFn ts max_lag).length = max_lag + 1) (b : Bool) (p : ℕ)
    (hres : check_seasonality acfFn ppf sqrtFn ts m max_lag alpha = .ok (b, p)) :
    p = 0 ∨ (1 ≤ p ∧ p ≤ max_lag) := by
  have hcand_bound : ∀ c ∈ argrelmax (acfFn ts max_lag), 1 ≤ c ∧ c ≤ max_lag := by
    intro c hc
    have hb := mem_argrelmax _ c hc
    omega
  unfold check_seasonality at hres
  by_cases h1 : m_invalid m
  · rw [if_pos h1] at hres; cases hres
  rw [if_neg h1] at hres
  by_cases h2 : m_exceeds m max_lag
  · rw [if_pos h2] at hres; cases hres
  rw [if_neg h2] at hres
  by_cases hconst : ts.dedup.length = 1
  · rw [if_pos hconst] at hres
    cases hres
    exact Or.inl rfl
  rw [if_neg hconst] at hres
  by_cases hcand : argrelmax (acfFn ts max_lag) = []
  · simp only [hcand, if_pos] at hres
    cases hres
    exact Or.inl rfl
  simp only [if_neg hcand] at hres
  cases m with
  | none =>
    simp only [Except.ok.injEq, acf_significance] at hres
    rcases findSignificant_cases sqrtFn ((acfFn ts max_lag).drop 1) ts.length
        (listMean ((acfFn ts max_lag).drop 1) +
          ppf (1 - alpha / 2) * listVar ((acfFn ts max_lag).drop 1))
        (argrelmax (acfFn ts max_lag)) with hca | hca
    · rw [hca] at hres
      injection hres with hb hp
      exact Or.inl hp.symm
    · rw [hres] at hca
      exact Or.inr (hcand_bound p hca.2)
  | some q =>
    dsimp only at hres
    by_cases hmem : q.val.num.toNat ∈ argrelmax (acfFn ts max_lag)
    · rw [if_pos hmem] at hres
      simp only [Except.ok.injEq, acf_significance] at hres
      rcases findSignificant_cases sqrtFn ((acfFn ts max_lag).drop 1) ts.length
          (listMean ((acfFn ts max_lag).drop 1) +
            ppf (1 - alpha / 2) * listVar ((acfFn ts max_lag).drop 1))
          [q.val.num.toNat] with hca | hca
      · rw [hca] at hres
        injection hres with hb hp
        exact Or.inl hp.symm
      · rw [hres] at hca
        have hp2 : p ∈ [q.val.num.toNat] := hca.2
        simp only [List.mem_singleton] at hp2
        exact Or.inr (hp2 ▸ hcand_bound _ hmem)
    · rw [if_neg hmem] at hres
      injection hres with hres2
      injection hres2 with hb hp
      exact Or.inr (hp ▸ pynum_bounds q max_lag (by simpa using h1) (by simpa using h2))

/-- Claim C8 witness: a positive verdict whose period 2 lies in `[1, max_lag]`. -/
theorem check_seasonality_period_range_witness :
    ((2 : ℕ) = 0 ∨ (1 ≤ (2 : ℕ) ∧ (2 : ℕ) ≤ 3)) :=
  check_seasonality_period_range (fun _ _ => [1, 0, (1 : ℚ)/2, 0]) id id
    [0, 1, 0, 2] none 3 (1/20) (by decide) true 2 (by decide)
